import Mathlib

/-!
# Verification of the MCPanel orchestration backend core
  (container lifecycle state machine and transition scheduler, `src/server.js`)

Shallow embedding of the in-memory registry (`containers`, a JS `Map`),
the `createContainer` constructor, the five request handlers
(create / start / stop / restart / delete) and the delayed `setTimeout`
effects they schedule.

Modelling decisions, each tied to a construct of the source:

* JS objects are mutable and captured by reference in the `setTimeout`
  closures of the start / stop / restart handlers.  We model object
  identity with an explicit heap `heap : List (Nat × Container)` keyed by
  an allocation counter `nextRef`; the registry `containers` maps the
  string id to the object reference.  `Map.delete` only removes the
  id → reference entry; the object itself survives (as in JS, where the
  closure keeps it alive), so a late-firing timer mutates the detached
  object without any observable effect through the registry.
* `crypto.randomBytes(16).toString('hex')` is an external randomness
  source; the drawn hex string is an explicit input `rand` of the create
  request.  The code performs no collision check (`containers.set`
  overwrites), which the model reproduces.
* `new Date().toISOString()` timestamps are modelled as `Nat` instants
  supplied with each event.
* `setTimeout(cb, ms)` enqueues a pending task; tasks cannot be
  cancelled.  Firing is a separate event that removes one occurrence of
  the task and runs its callback.  The delay constants of the source are
  recorded by `timerDelay` but—as the spec states—their magnitude is not a
  correctness property, only the scheduling structure is.
* JS truthiness defaulting (`config.type || 'paper'` …) is `jsOrStr` /
  `jsOrInt`: `undefined` (`none`), the empty string, and the number `0`
  are the falsy values the handlers can receive.
* Express handlers never throw in this code path; every handler is a
  total function returning a `Resp` (modelling the JSON/status response),
  so "never raises" claims are reflected by totality of the model.
-/

/-- An instance record, the object literal built by `createContainer`
(`src/server.js:31-41`).  `startedAt` / `stoppedAt` are absent until the
corresponding delayed effect stamps them. -/
structure Container where
  id : String
  name : String
  type : String
  version : String
  port : Int
  ramMb : Int
  maxPlayers : Int
  status : String
  createdAt : Nat
  startedAt : Option Nat := none
  stoppedAt : Option Nat := none
deriving Repr, DecidableEq

/-- The request body of `POST /api/servers`: every field may be absent
(`undefined`). -/
structure Body where
  name : Option String := none
  type : Option String := none
  version : Option String := none
  port : Option Int := none
  ramMb : Option Int := none
  maxPlayers : Option Int := none
deriving Repr, DecidableEq

/-- The argument object `{name, type, version, port, ramMb, maxPlayers}`
passed to `createContainer` by the route handler (`src/server.js:64-71`);
`name` has been validated non-falsy by then. -/
structure Config where
  name : String
  type : Option String := none
  version : Option String := none
  port : Option Int := none
  ramMb : Option Int := none
  maxPlayers : Option Int := none
deriving Repr, DecidableEq

/-- JS `v || d` for a possibly-absent string: `undefined` and `""` are
falsy. -/
def jsOrStr (v : Option String) (d : String) : String :=
  match v with
  | none => d
  | some s => if s = "" then d else s

/-- JS `v || d` for a possibly-absent number: `undefined` and `0` are
falsy. -/
def jsOrInt (v : Option Int) (d : Int) : Int :=
  match v with
  | none => d
  | some n => if n = 0 then d else n

/-- A pending `setTimeout` callback.  The create-flow callback re-looks
the id up in the registry (`src/server.js:75`); the start / stop /
restart callbacks mutate the object captured by the closure, identified
here by its heap reference. -/
inductive Timer where
  | createFire (cid : String)
  | startFire (r : Nat)
  | stopFire (r : Nat)
  | restartStopFire (r : Nat)
  | restartStartFire (r : Nat)
deriving Repr, DecidableEq

/-- The delay in milliseconds each task was scheduled with
(`src/server.js:83,135,155,176,175`). -/
def timerDelay : Timer → Nat
  | .createFire _ => 3000
  | .startFire _ => 3000
  | .stopFire _ => 2000
  | .restartStopFire _ => 2000
  | .restartStartFire _ => 3000

/-- Whole-system state: the object heap, the `containers` map
(id → object reference), the pending timers, and the allocation
counter. -/
structure Sys where
  heap : List (Nat × Container) := []
  containers : List (String × Nat) := []
  pending : List Timer := []
  nextRef : Nat := 0
deriving Repr, DecidableEq

/-- The initial state: empty `containers` map, no timers. -/
def Sys.init : Sys := {}

/-- `Map.set`: replace in place if the key is present, append
otherwise. -/
def mapSet (m : List (String × Nat)) (k : String) (v : Nat) : List (String × Nat) :=
  match m with
  | [] => [(k, v)]
  | (k', v') :: rest => if k' = k then (k, v) :: rest else (k', v') :: mapSet rest k v

/-- `Map.delete`: drop the entry for the key. -/
def mapDelete (m : List (String × Nat)) (k : String) : List (String × Nat) :=
  match m with
  | [] => []
  | (k', v') :: rest => if k' = k then mapDelete rest k else (k', v') :: mapDelete rest k

/-- `Map.get`: the value stored under the key, if any. -/
def mapGet (m : List (String × Nat)) (k : String) : Option Nat :=
  match m with
  | [] => none
  | (k', v') :: rest => if k' = k then some v' else mapGet rest k

/-- In-place mutation of the heap object at reference `r` (JS assignment
through an object reference).  References are never deallocated, so the
fall-through case is dead. -/
def heapSet (h : List (Nat × Container)) (r : Nat) (c : Container) : List (Nat × Container) :=
  match h with
  | [] => []
  | (r', c') :: rest => if r' = r then (r, c) :: rest else (r', c') :: heapSet rest r c

/-- Dereference a heap object. -/
def heapGet (h : List (Nat × Container)) (r : Nat) : Option Container :=
  match h with
  | [] => none
  | (r', c') :: rest => if r' = r then some c' else heapGet rest r

/-- The HTTP response produced by a handler. -/
inductive Resp where
  | created (c : Container)
  | okMsg (success : Bool) (message : String)
  | found (c : Container)
  | notFound
  | badRequest (msg : String)
deriving Repr, DecidableEq

/-- The id of the container in a `201 Created` response, if any. -/
def createdId : Resp → Option String
  | .created c => some c.id
  | _ => none

/-- The object literal of `createContainer` (`src/server.js:31-41`). -/
def buildContainer (rand : String) (cfg : Config) (now : Nat) : Container :=
  { id := rand
    name := cfg.name
    type := jsOrStr cfg.type "paper"
    version := jsOrStr cfg.version "1.21.1"
    port := jsOrInt cfg.port 25565
    ramMb := jsOrInt cfg.ramMb 2048
    maxPlayers := jsOrInt cfg.maxPlayers 20
    status := "created"
    createdAt := now }

/-- `createContainer` (`src/server.js:29-44`): build the record, allocate
a fresh object, `containers.set(containerId, container)`, return the
record. -/
def createContainer (s : Sys) (rand : String) (cfg : Config) (now : Nat) : Sys × Container :=
  let c := buildContainer rand cfg now
  ({ s with
      heap := (s.nextRef, c) :: s.heap
      containers := mapSet s.containers rand s.nextRef
      nextRef := s.nextRef + 1 }, c)

/-- The `{...}` argument the create route builds from the destructured
body once `name` is validated. -/
def cfgOf (body : Body) (n : String) : Config :=
  { name := n, type := body.type, version := body.version
    port := body.port, ramMb := body.ramMb, maxPlayers := body.maxPlayers }

/-- `POST /api/servers` (`src/server.js:59-90`): validate `name`
(JS `!name`, so absent or empty string → 400), create the record, and
schedule the startup `setTimeout`. -/
def postServers (s : Sys) (body : Body) (rand : String) (now : Nat) : Sys × Resp :=
  match body.name with
  | none => (s, .badRequest "Server name is required")
  | some n =>
    if n = "" then (s, .badRequest "Server name is required")
    else
      let sc := createContainer s rand (cfgOf body n) now
      ({ sc.1 with pending := sc.1.pending ++ [Timer.createFire sc.2.id] }, .created sc.2)

/-- `GET /api/servers/:id` (`src/server.js:113-118`), and the observable
view of the registry in general: resolve the id to its object
reference, then read the object. -/
def getServer (s : Sys) (id : String) : Option Container :=
  match mapGet s.containers id with
  | none => none
  | some r => heapGet s.heap r

/-- `POST /api/servers/:id/start` (`src/server.js:121-138`). -/
def startServer (s : Sys) (id : String) : Sys × Resp :=
  match mapGet s.containers id with
  | none => (s, .notFound)
  | some r =>
    match heapGet s.heap r with
    | none => (s, .notFound)
    | some c =>
      if c.status = "running" then (s, .okMsg false "Already running")
      else
        ({ s with
            heap := heapSet s.heap r { c with status := "starting" }
            pending := s.pending ++ [Timer.startFire r] }, .okMsg true "Server starting")

/-- `POST /api/servers/:id/stop` (`src/server.js:141-158`). -/
def stopServer (s : Sys) (id : String) : Sys × Resp :=
  match mapGet s.containers id with
  | none => (s, .notFound)
  | some r =>
    match heapGet s.heap r with
    | none => (s, .notFound)
    | some c =>
      if c.status = "stopped" then (s, .okMsg false "Already stopped")
      else
        ({ s with
            heap := heapSet s.heap r { c with status := "stopping" }
            pending := s.pending ++ [Timer.stopFire r] }, .okMsg true "Server stopping")

/-- `POST /api/servers/:id/restart` (`src/server.js:161-179`):
unconditionally set `stopping` and schedule the outer (stop-phase)
timer; the inner (start-phase) timer is only scheduled when the outer
one fires. -/
def restartServer (s : Sys) (id : String) : Sys × Resp :=
  match mapGet s.containers id with
  | none => (s, .notFound)
  | some r =>
    match heapGet s.heap r with
    | none => (s, .notFound)
    | some c =>
      ({ s with
          heap := heapSet s.heap r { c with status := "stopping" }
          pending := s.pending ++ [Timer.restartStopFire r] }, .okMsg true "Server restarting")

/-- `DELETE /api/servers/:id` (`src/server.js:182-190`):
`containers.delete` removes the map entry only; pending timers and heap
objects are untouched. -/
def deleteServer (s : Sys) (id : String) : Sys × Resp :=
  match mapGet s.containers id with
  | none => (s, .notFound)
  | some _ => ({ s with containers := mapDelete s.containers id }, .okMsg true "Server deleted")

/-- Run a timer callback.  The create-flow callback
(`src/server.js:74-83`) re-looks the id up and is guarded by `if (c)`;
the other callbacks mutate the captured object directly.  The restart
stop-phase callback schedules the start-phase timer
(`src/server.js:169-176`). -/
def fireTimer (s : Sys) (t : Timer) (now : Nat) : Sys :=
  match t with
  | .createFire cid =>
    match mapGet s.containers cid with
    | none => s
    | some r =>
      match heapGet s.heap r with
      | none => s
      | some c =>
        { s with heap := heapSet s.heap r { c with status := "running", startedAt := some now } }
  | .startFire r =>
    match heapGet s.heap r with
    | none => s
    | some c =>
      { s with heap := heapSet s.heap r { c with status := "running", startedAt := some now } }
  | .stopFire r =>
    match heapGet s.heap r with
    | none => s
    | some c =>
      { s with heap := heapSet s.heap r { c with status := "stopped", stoppedAt := some now } }
  | .restartStopFire r =>
    match heapGet s.heap r with
    | none => s
    | some c =>
      { s with
          heap := heapSet s.heap r { c with status := "starting" }
          pending := s.pending ++ [Timer.restartStartFire r] }
  | .restartStartFire r =>
    match heapGet s.heap r with
    | none => s
    | some c =>
      { s with heap := heapSet s.heap r { c with status := "running", startedAt := some now } }

/-- An event of the whole system: a request arriving (handlers run to
completion, single-threaded) or a pending timer firing. -/
inductive Event where
  | createReq (body : Body) (rand : String) (now : Nat)
  | startReq (id : String)
  | stopReq (id : String)
  | restartReq (id : String)
  | deleteReq (id : String)
  | fire (t : Timer) (now : Nat)
deriving Repr, DecidableEq

/-- One step of the system.  A `fire` event consumes one occurrence of a
pending task and runs its callback; firing a task that is not pending is
impossible and leaves the state unchanged. -/
def step (s : Sys) (e : Event) : Sys × Option Resp :=
  match e with
  | .createReq body rand now =>
    let sr := postServers s body rand now
    (sr.1, some sr.2)
  | .startReq id =>
    let sr := startServer s id
    (sr.1, some sr.2)
  | .stopReq id =>
    let sr := stopServer s id
    (sr.1, some sr.2)
  | .restartReq id =>
    let sr := restartServer s id
    (sr.1, some sr.2)
  | .deleteReq id =>
    let sr := deleteServer s id
    (sr.1, some sr.2)
  | .fire t now =>
    if t ∈ s.pending then (fireTimer { s with pending := s.pending.erase t } t now, none)
    else (s, none)

/-- States reachable from the empty initial state by any sequence of
requests and timer firings. -/
inductive Reachable : Sys → Prop where
  | init : Reachable Sys.init
  | tail {s : Sys} (e : Event) : Reachable s → Reachable (step s e).1

/-! ## Concrete example states, used to evaluate the theorems -/

/-- A creation request body carrying only a name. -/
def exBody : Body := { name := some "Survival" }

/-- One create request against the empty system: a single record with id
`id1`, status `created`, with the startup timer pending. -/
def exS1 : Sys := (step Sys.init (Event.createReq exBody "id1" 0)).1

/-- `exS1` after `DELETE /api/servers/id1`: the map entry is gone, the
startup timer is still pending. -/
def exS2 : Sys := (step exS1 (Event.deleteReq "id1")).1

/-- `exS2` after the startup timer fires (at its 3000 ms delay). -/
def exS3 : Sys := (step exS2 (Event.fire (Timer.createFire "id1") 3000)).1

/-- A plain record as built by `createContainer` for a name-only config. -/
def cBase : Container := buildContainer "cc" { name := "N" } 0

/-- A registry holding one `running` record under id `cc`. -/
def exRunning : Sys :=
  { heap := [(0, { cBase with status := "running" })]
    containers := [("cc", 0)], pending := [], nextRef := 1 }

/-- A registry holding one `stopped` record under id `cc`. -/
def exStoppedS : Sys :=
  { heap := [(0, { cBase with status := "stopped" })]
    containers := [("cc", 0)], pending := [], nextRef := 1 }

/-- A detached object: its id was deleted from the map while a start
timer for it is still pending. -/
def exDetached : Sys :=
  { heap := [(0, cBase)], containers := [], pending := [Timer.startFire 0], nextRef := 1 }

/-- One create request with random draw `aa` against the empty system. -/
def exTwiceS1 : Sys := (postServers Sys.init { name := some "A" } "aa" 0).1

/-- The five enumerated lifecycle statuses. -/
def validStatus (st : String) : Prop :=
  st = "created" ∨ st = "starting" ∨ st = "running" ∨ st = "stopping" ∨ st = "stopped"

/-- Every object ever allocated carries an enumerated status. -/
def heapOk (h : List (Nat × Container)) : Prop :=
  ∀ p ∈ h, validStatus p.2.status

/-! ## Map and heap lemmas -/

theorem mapGet_mapSet_self (m : List (String × Nat)) (k : String) (v : Nat) :
    mapGet (mapSet m k v) k = some v := by
  induction m with
  | nil => simp [mapSet, mapGet]
  | cons p rest ih =>
    obtain ⟨a, b⟩ := p
    by_cases hk : a = k
    · simp [mapSet, hk, mapGet]
    · simp [mapSet, hk, mapGet, ih]

theorem mapGet_mapSet_ne (m : List (String × Nat)) (k k' : String) (v : Nat)
    (h : k' ≠ k) : mapGet (mapSet m k v) k' = mapGet m k' := by
  have h' : k ≠ k' := Ne.symm h
  induction m with
  | nil => simp [mapSet, mapGet, h']
  | cons p rest ih =>
    obtain ⟨a, b⟩ := p
    by_cases hk : a = k
    · subst hk
      simp [mapSet, mapGet, h']
    · simp [mapSet, hk, mapGet, ih]

theorem mapGet_mapDelete_self (m : List (String × Nat)) (k : String) :
    mapGet (mapDelete m k) k = none := by
  induction m with
  | nil => simp [mapDelete, mapGet]
  | cons p rest ih =>
    obtain ⟨a, b⟩ := p
    by_cases hk : a = k
    · simp [mapDelete, hk, ih]
    · simp [mapDelete, hk, mapGet, ih]

theorem mapGet_mapDelete_ne (m : List (String × Nat)) (k k' : String)
    (h : k' ≠ k) : mapGet (mapDelete m k) k' = mapGet m k' := by
  have h' : k ≠ k' := Ne.symm h
  induction m with
  | nil => simp [mapDelete]
  | cons p rest ih =>
    obtain ⟨a, b⟩ := p
    by_cases hk : a = k
    · subst hk
      simp [mapDelete, mapGet, h', ih]
    · simp [mapDelete, hk, mapGet, ih]

theorem heapGet_heapSet_self (h : List (Nat × Container)) (r : Nat) (c c₀ : Container)
    (hr : heapGet h r = some c₀) : heapGet (heapSet h r c) r = some c := by
  induction h with
  | nil => simp [heapGet] at hr
  | cons p rest ih =>
    obtain ⟨a, b⟩ := p
    by_cases hk : a = r
    · simp [heapSet, hk, heapGet]
    · simp [heapGet, hk] at hr
      simp [heapSet, hk, heapGet, ih hr]

theorem heapGet_heapSet_ne (h : List (Nat × Container)) (r r' : Nat) (c : Container)
    (hne : r' ≠ r) : heapGet (heapSet h r c) r' = heapGet h r' := by
  have h' : r ≠ r' := Ne.symm hne
  induction h with
  | nil => simp [heapSet]
  | cons p rest ih =>
    obtain ⟨a, b⟩ := p
    by_cases hk : a = r
    · subst hk
      simp [heapSet, heapGet, h']
    · simp [heapSet, hk, heapGet, ih]

theorem heapGet_mem (h : List (Nat × Container)) (r : Nat) (c : Container)
    (hr : heapGet h r = some c) : (r, c) ∈ h := by
  induction h with
  | nil => simp [heapGet] at hr
  | cons p rest ih =>
    obtain ⟨a, b⟩ := p
    by_cases hk : a = r
    · simp [heapGet, hk] at hr
      subst hk hr
      exact List.mem_cons_self _ _
    · simp [heapGet, hk] at hr
      exact List.mem_cons_of_mem _ (ih hr)

theorem heapSet_mem (h : List (Nat × Container)) (r : Nat) (c : Container)
    (p : Nat × Container) (hp : p ∈ heapSet h r c) : p = (r, c) ∨ p ∈ h := by
  induction h with
  | nil => simp [heapSet] at hp
  | cons q rest ih =>
    obtain ⟨a, b⟩ := q
    by_cases hk : a = r
    · simp [heapSet, hk] at hp
      rcases hp with hp | hp
      · exact Or.inl (by simp [hp])
      · exact Or.inr (List.mem_cons_of_mem _ hp)
    · simp [heapSet, hk] at hp
      rcases hp with hp | hp
      · exact Or.inr (by simp [hp])
      · rcases ih hp with hh | hh
        · exact Or.inl hh
        · exact Or.inr (List.mem_cons_of_mem _ hh)

/-! ## Truthiness-default lemmas -/

theorem jsOrStr_ne_empty (v : Option String) (d : String) (hd : d ≠ "") :
    jsOrStr v d ≠ "" := by
  cases v with
  | none => simpa [jsOrStr] using hd
  | some t => by_cases ht : t = "" <;> simp [jsOrStr, ht, hd]

theorem jsOrInt_ne_zero (v : Option Int) (d : Int) (hd : d ≠ 0) :
    jsOrInt v d ≠ 0 := by
  cases v with
  | none => simpa [jsOrInt] using hd
  | some n => by_cases hn : n = 0 <;> simp [jsOrInt, hn, hd]

/-! ## Claim theorems -/

/-- **C7.** A creation request whose body has no `name` yields the 400
error response, and the whole state — in particular the registry
contents and size — is exactly what it was before the request. -/
theorem missing_name_rejected (s : Sys) (body : Body) (rand : String) (now : Nat)
    (h : body.name = none) :
    (postServers s body rand now).2 = Resp.badRequest "Server name is required" ∧
    (postServers s body rand now).1 = s := by
  simp [postServers, h]

/-- **C7 (witness).** Evaluated on the empty body against `exS1`. -/
theorem missing_name_rejected_witness :
    (({} : Body)).name = none ∧
    (postServers exS1 {} "zz" 7).2 = Resp.badRequest "Server name is required" ∧
    (postServers exS1 {} "zz" 7).1 = exS1 :=
  ⟨rfl, (missing_name_rejected exS1 {} "zz" 7 rfl).1, (missing_name_rejected exS1 {} "zz" 7 rfl).2⟩

/-- **C6.** For a well-formed config (some non-empty name), create
returns a 201 response carrying the new record; the record's id is the
freshly drawn identifier, its status is `created`, `createdAt` is set to
the current instant, every omitted configuration field got its
documented default, and the record is stored (resolvable through the
registry).  The handler is total: no failure path exists for such
bodies. -/
theorem create_wellformed_spec (s : Sys) (body : Body) (rand : String) (now : Nat) (n : String)
    (hn : body.name = some n) (hne : n ≠ "") :
    (postServers s body rand now).2 = Resp.created (buildContainer rand (cfgOf body n) now) ∧
    getServer (postServers s body rand now).1 rand = some (buildContainer rand (cfgOf body n) now) ∧
    (buildContainer rand (cfgOf body n) now).id = rand ∧
    (buildContainer rand (cfgOf body n) now).name = n ∧
    (buildContainer rand (cfgOf body n) now).status = "created" ∧
    (buildContainer rand (cfgOf body n) now).createdAt = now ∧
    (body.type = none → (buildContainer rand (cfgOf body n) now).type = "paper") ∧
    (body.version = none → (buildContainer rand (cfgOf body n) now).version = "1.21.1") ∧
    (body.port = none → (buildContainer rand (cfgOf body n) now).port = 25565) ∧
    (body.ramMb = none → (buildContainer rand (cfgOf body n) now).ramMb = 2048) ∧
    (body.maxPlayers = none → (buildContainer rand (cfgOf body n) now).maxPlayers = 20) := by
  refine ⟨?_, ?_, rfl, rfl, rfl, rfl, ?_, ?_, ?_, ?_, ?_⟩
  · simp [postServers, hn, hne, createContainer]
  · simp [postServers, hn, hne, createContainer, getServer, mapGet_mapSet_self, heapGet]
  · intro h; simp [buildContainer, cfgOf, h, jsOrStr]
  · intro h; simp [buildContainer, cfgOf, h, jsOrStr]
  · intro h; simp [buildContainer, cfgOf, h, jsOrInt]
  · intro h; simp [buildContainer, cfgOf, h, jsOrInt]
  · intro h; simp [buildContainer, cfgOf, h, jsOrInt]

/-- **C6 (witness).** Evaluated on the name-only body `exBody`. -/
theorem create_wellformed_spec_witness :
    exBody.name = some "Survival" ∧ ("Survival" : String) ≠ "" ∧
    (postServers Sys.init exBody "id1" 0).2
      = Resp.created (buildContainer "id1" (cfgOf exBody "Survival") 0) ∧
    getServer (postServers Sys.init exBody "id1" 0).1 "id1"
      = some (buildContainer "id1" (cfgOf exBody "Survival") 0) :=
  ⟨rfl, by decide,
   (create_wellformed_spec Sys.init exBody "id1" 0 "Survival" rfl (by decide)).1,
   (create_wellformed_spec Sys.init exBody "id1" 0 "Survival" rfl (by decide)).2.1⟩

/-- **C10.** Default substitution is by JS truthiness, not by absence: a
field supplied as `0` (numbers) or `""` (strings) produces exactly the
same created state and record as the omitted field, and consequently no
record is ever created with port 0, ram 0, max-players 0, an
empty-string type, or an empty-string version. -/
theorem defaults_by_truthiness (s : Sys) (rand : String) (now : Nat) (cfg : Config) :
    (createContainer s rand { cfg with type := some "" } now
      = createContainer s rand { cfg with type := none } now) ∧
    (createContainer s rand { cfg with version := some "" } now
      = createContainer s rand { cfg with version := none } now) ∧
    (createContainer s rand { cfg with port := some 0 } now
      = createContainer s rand { cfg with port := none } now) ∧
    (createContainer s rand { cfg with ramMb := some 0 } now
      = createContainer s rand { cfg with ramMb := none } now) ∧
    (createContainer s rand { cfg with maxPlayers := some 0 } now
      = createContainer s rand { cfg with maxPlayers := none } now) ∧
    (createContainer s rand cfg now).2.port ≠ 0 ∧
    (createContainer s rand cfg now).2.version ≠ "" ∧
    (createContainer s rand cfg now).2.type ≠ "" ∧
    (createContainer s rand cfg now).2.ramMb ≠ 0 ∧
    (createContainer s rand cfg now).2.maxPlayers ≠ 0 := by
  refine ⟨?_, ?_, ?_, ?_, ?_, ?_, ?_, ?_, ?_, ?_⟩
  · simp [createContainer, buildContainer, jsOrStr]
  · simp [createContainer, buildContainer, jsOrStr]
  · simp [createContainer, buildContainer, jsOrInt]
  · simp [createContainer, buildContainer, jsOrInt]
  · simp [createContainer, buildContainer, jsOrInt]
  · exact jsOrInt_ne_zero _ _ (by decide)
  · exact jsOrStr_ne_empty _ _ (by decide)
  · exact jsOrStr_ne_empty _ _ (by decide)
  · exact jsOrInt_ne_zero _ _ (by decide)
  · exact jsOrInt_ne_zero _ _ (by decide)

/-- **C4.** `start` on an existing record: if the record is `running`
the handler answers `success=false, "Already running"` and the whole
state is untouched; otherwise the record's status is set to `starting`
immediately, the start timer is scheduled, and when that timer fires the
record's status becomes `running` with `startedAt` stamped at the firing
instant. -/
theorem start_request_spec (s : Sys) (id : String) (r : Nat) (c : Container)
    (hr : mapGet s.containers id = some r) (hc : heapGet s.heap r = some c) :
    (c.status = "running" → startServer s id = (s, Resp.okMsg false "Already running")) ∧
    (c.status ≠ "running" →
      (startServer s id).2 = Resp.okMsg true "Server starting" ∧
      getServer (startServer s id).1 id = some { c with status := "starting" } ∧
      (startServer s id).1.pending = s.pending ++ [Timer.startFire r] ∧
      ∀ s₂ c₂ later, heapGet s₂.heap r = some c₂ →
        heapGet (fireTimer s₂ (Timer.startFire r) later).heap r
          = some { c₂ with status := "running", startedAt := some later }) := by
  constructor
  · intro hrun
    simp [startServer, hr, hc, hrun]
  · intro hrun
    refine ⟨?_, ?_, ?_, ?_⟩
    · simp [startServer, hr, hc, hrun]
    · simp [startServer, getServer, hr, hc, hrun, heapGet_heapSet_self _ _ _ _ hc]
    · simp [startServer, hr, hc, hrun]
    · intro s₂ c₂ later hc₂
      simp [fireTimer, hc₂, heapGet_heapSet_self _ _ _ _ hc₂]

/-- **C4 (witness).** The `running` branch evaluated on `exRunning`, the
other branch on the `created` record of `exS1` followed by its timer. -/
theorem start_request_spec_witness :
    mapGet exRunning.containers "cc" = some 0 ∧
    heapGet exRunning.heap 0 = some { cBase with status := "running" } ∧
    startServer exRunning "cc" = (exRunning, Resp.okMsg false "Already running") ∧
    mapGet exS1.containers "id1" = some 0 ∧
    heapGet exS1.heap 0 = some (buildContainer "id1" (cfgOf exBody "Survival") 0) ∧
    (startServer exS1 "id1").2 = Resp.okMsg true "Server starting" ∧
    getServer (startServer exS1 "id1").1 "id1"
      = some { buildContainer "id1" (cfgOf exBody "Survival") 0 with status := "starting" } :=
  ⟨rfl, rfl,
   (start_request_spec exRunning "cc" 0 { cBase with status := "running" } rfl rfl).1 rfl,
   rfl, rfl,
   ((start_request_spec exS1 "id1" 0 (buildContainer "id1" (cfgOf exBody "Survival") 0)
      rfl rfl).2 (by decide)).1,
   ((start_request_spec exS1 "id1" 0 (buildContainer "id1" (cfgOf exBody "Survival") 0)
      rfl rfl).2 (by decide)).2.1⟩

/-- **C5.** `stop` on an existing record: if the record is `stopped` the
handler answers `success=false, "Already stopped"` and the whole state
is untouched; otherwise the record's status is set to `stopping`
immediately, the stop timer is scheduled, and when that timer fires the
record's status becomes `stopped` with `stoppedAt` stamped at the firing
instant. -/
theorem stop_request_spec (s : Sys) (id : String) (r : Nat) (c : Container)
    (hr : mapGet s.containers id = some r) (hc : heapGet s.heap r = some c) :
    (c.status = "stopped" → stopServer s id = (s, Resp.okMsg false "Already stopped")) ∧
    (c.status ≠ "stopped" →
      (stopServer s id).2 = Resp.okMsg true "Server stopping" ∧
      getServer (stopServer s id).1 id = some { c with status := "stopping" } ∧
      (stopServer s id).1.pending = s.pending ++ [Timer.stopFire r] ∧
      ∀ s₂ c₂ later, heapGet s₂.heap r = some c₂ →
        heapGet (fireTimer s₂ (Timer.stopFire r) later).heap r
          = some { c₂ with status := "stopped", stoppedAt := some later }) := by
  constructor
  · intro hstop
    simp [stopServer, hr, hc, hstop]
  · intro hstop
    refine ⟨?_, ?_, ?_, ?_⟩
    · simp [stopServer, hr, hc, hstop]
    · simp [stopServer, getServer, hr, hc, hstop, heapGet_heapSet_self _ _ _ _ hc]
    · simp [stopServer, hr, hc, hstop]
    · intro s₂ c₂ later hc₂
      simp [fireTimer, hc₂, heapGet_heapSet_self _ _ _ _ hc₂]

/-- **C5 (witness).** The `stopped` branch evaluated on `exStoppedS`,
the other branch on the `running` record of `exRunning`. -/
theorem stop_request_spec_witness :
    mapGet exStoppedS.containers "cc" = some 0 ∧
    heapGet exStoppedS.heap 0 = some { cBase with status := "stopped" } ∧
    stopServer exStoppedS "cc" = (exStoppedS, Resp.okMsg false "Already stopped") ∧
    mapGet exRunning.containers "cc" = some 0 ∧
    heapGet exRunning.heap 0 = some { cBase with status := "running" } ∧
    (stopServer exRunning "cc").2 = Resp.okMsg true "Server stopping" ∧
    getServer (stopServer exRunning "cc").1 "cc"
      = some { cBase with status := "stopping" } :=
  ⟨rfl, rfl,
   (stop_request_spec exStoppedS "cc" 0 { cBase with status := "stopped" } rfl rfl).1 rfl,
   rfl, rfl,
   ((stop_request_spec exRunning "cc" 0 { cBase with status := "running" } rfl rfl).2
      (by decide)).1,
   ((stop_request_spec exRunning "cc" 0 { cBase with status := "running" } rfl rfl).2
      (by decide)).2.1⟩

/-- **C2 (counterexample).** Create `id1`, delete it, then let the
startup timer fire: the claim predicts status `running` with `startedAt`
stamped even though the record was deleted, but the callback's
`if (c)` guard (`src/server.js:76`) makes it a no-op — the only object
ever allocated still has status `created` and no `startedAt`, and the id
stays unresolvable. -/
theorem create_fire_unconditional_refuted :
    heapGet exS3.heap 0 = some (buildContainer "id1" (cfgOf exBody "Survival") 0) ∧
    (buildContainer "id1" (cfgOf exBody "Survival") 0).status = "created" ∧
    (buildContainer "id1" (cfgOf exBody "Survival") 0).startedAt = none ∧
    getServer exS3 "id1" = none := by
  refine ⟨rfl, rfl, rfl, rfl⟩

/-- **C2 (amended).** After the startup delay the create-flow callback
sets status to `running` and stamps `startedAt` whenever the id still
resolves to a record — unconditionally in the record's status, so in
particular also when it was stopped in the interim — but when the record
was deleted (the id no longer resolves) the callback is a complete
no-op. -/
theorem create_delayed_effect_spec (s : Sys) (cid : String) (now : Nat) :
    (∀ r c, mapGet s.containers cid = some r → heapGet s.heap r = some c →
      getServer (fireTimer s (Timer.createFire cid) now) cid
        = some { c with status := "running", startedAt := some now }) ∧
    (mapGet s.containers cid = none → fireTimer s (Timer.createFire cid) now = s) := by
  constructor
  · intro r c hr hc
    simp [fireTimer, getServer, hr, hc, heapGet_heapSet_self _ _ _ _ hc]
  · intro hr
    simp [fireTimer, hr]

/-- **C2 (witness).** The resolvable branch evaluated on a stopped
record (`exStoppedS`), the deleted branch on `exS2`. -/
theorem create_delayed_effect_spec_witness :
    mapGet exStoppedS.containers "cc" = some 0 ∧
    heapGet exStoppedS.heap 0 = some { cBase with status := "stopped" } ∧
    getServer (fireTimer exStoppedS (Timer.createFire "cc") 3000) "cc"
      = some { cBase with status := "running", startedAt := some 3000 } ∧
    mapGet exS2.containers "id1" = none ∧
    fireTimer exS2 (Timer.createFire "id1") 3000 = exS2 :=
  ⟨rfl, rfl,
   (create_delayed_effect_spec exStoppedS "cc" 3000).1 0 { cBase with status := "stopped" } rfl rfl,
   rfl,
   (create_delayed_effect_spec exS2 "id1" 3000).2 rfl⟩

/-- **C9 (counterexample).** `createContainer` uses the drawn
`crypto.randomBytes` value as the id with no collision check
(`containers.set` overwrites).  Two create requests whose random draws
are equal (`"aa"` twice) return records with the *same* id, and the
registry afterwards holds a single entry: the first record was
overwritten, i.e. the id was allocated again by a later create. -/
theorem id_reuse_on_equal_draws :
    createdId (postServers Sys.init { name := some "A" } "aa" 0).2 = some "aa" ∧
    createdId (postServers exTwiceS1 { name := some "B" } "aa" 1).2 = some "aa" ∧
    (postServers exTwiceS1 { name := some "B" } "aa" 1).1.containers.length = 1 := by
  refine ⟨rfl, rfl, rfl⟩

/-- **C9 (amended).** Identifiers are distinct whenever the underlying
16-byte random draws are distinct (the code performs no collision
check, so equal draws reuse the id and overwrite, as the counterexample
shows): for two consecutive creates with distinct draws — regardless of
the names, including equal names — the two responses carry the two
distinct draws as ids and both records are stored and resolvable
afterwards. -/
theorem ids_distinct_of_distinct_draws (s : Sys) (b1 b2 : Body) (r1 r2 : String)
    (t1 t2 : Nat) (n1 n2 : String)
    (h1 : b1.name = some n1) (h1e : n1 ≠ "") (h2 : b2.name = some n2) (h2e : n2 ≠ "")
    (hrand : r1 ≠ r2) :
    createdId (postServers s b1 r1 t1).2 = some r1 ∧
    createdId (postServers (postServers s b1 r1 t1).1 b2 r2 t2).2 = some r2 ∧
    (getServer (postServers (postServers s b1 r1 t1).1 b2 r2 t2).1 r1).map Container.id
      = some r1 ∧
    (getServer (postServers (postServers s b1 r1 t1).1 b2 r2 t2).1 r2).map Container.id
      = some r2 := by
  refine ⟨?_, ?_, ?_, ?_⟩
  · simp [postServers, h1, h1e, createContainer, createdId, buildContainer]
  · simp [postServers, h1, h1e, h2, h2e, createContainer, createdId, buildContainer]
  · simp [postServers, h1, h1e, h2, h2e, createContainer, getServer,
          mapGet_mapSet_self, mapGet_mapSet_ne _ _ _ _ hrand, heapGet, buildContainer]
  · simp [postServers, h1, h1e, h2, h2e, createContainer, getServer,
          mapGet_mapSet_self, heapGet, buildContainer]

/-- **C9 (witness).** Two creates with the same name `"A"` and distinct
draws `"aa"`, `"bb"` against the empty system. -/
theorem ids_distinct_of_distinct_draws_witness :
    ({ name := some "A" } : Body).name = some "A" ∧ ("A" : String) ≠ "" ∧
    ("aa" : String) ≠ "bb" ∧
    createdId (postServers Sys.init { name := some "A" } "aa" 0).2 = some "aa" ∧
    createdId (postServers exTwiceS1 { name := some "A" } "bb" 1).2 = some "bb" ∧
    (getServer (postServers exTwiceS1 { name := some "A" } "bb" 1).1 "aa").map Container.id
      = some "aa" ∧
    (getServer (postServers exTwiceS1 { name := some "A" } "bb" 1).1 "bb").map Container.id
      = some "bb" := by
  have h := ids_distinct_of_distinct_draws Sys.init { name := some "A" } { name := some "A" }
    "aa" "bb" 0 1 "A" "A" rfl (by decide) rfl (by decide) (by decide)
  exact ⟨rfl, by decide, by decide, h.1, h.2.1, h.2.2.1, h.2.2.2⟩

/-- Mutating a heap object that no registry key references does not
change the observable registry view. -/
theorem getServer_heapSet_unref (s' s₂ : Sys) (r : Nat) (c : Container)
    (hcm : s₂.containers = s'.containers) (hhp : s₂.heap = heapSet s'.heap r c)
    (hunref : ∀ k, mapGet s'.containers k ≠ some r) (j : String) :
    getServer s₂ j = getServer s' j := by
  cases hm : mapGet s'.containers j with
  | none => simp [getServer, hcm, hhp, hm]
  | some rj =>
    have hne : rj ≠ r := fun hh => hunref j (hh ▸ hm)
    simp [getServer, hcm, hhp, hm, heapGet_heapSet_ne _ _ _ _ hne]

/-- **C1.** Once `delete(id)` has been applied, the id is unresolvable
and no other key references its object; in any such state, a previously
scheduled delayed effect targeting that id — the create-flow timer keyed
by the id, or any start / stop / restart-phase timer holding the
object's reference — fires as a silent no-op: the observable registry
view is unchanged at every key, `get(id)` still reports not-found, and
(the model being total, with no retry event) nothing is raised or
retried.  The last conjunct is the delete postcondition itself: deleting
an existing id removes exactly that id from the registry. -/
theorem delete_then_delayed_fires_noop (s s' : Sys) (id : String) (r : Nat) (t : Timer)
    (now : Nat)
    (hdel : mapGet s'.containers id = none)
    (hunref : ∀ k, mapGet s'.containers k ≠ some r)
    (ht : t = Timer.createFire id ∨ t = Timer.startFire r ∨ t = Timer.stopFire r ∨
          t = Timer.restartStopFire r ∨ t = Timer.restartStartFire r) :
    (∀ j, getServer (fireTimer s' t now) j = getServer s' j) ∧
    getServer (fireTimer s' t now) id = none ∧
    (mapGet s.containers id = some r →
      getServer (deleteServer s id).1 id = none ∧
      ∀ k, k ≠ id → mapGet (deleteServer s id).1.containers k = mapGet s.containers k) := by
  have hview : ∀ j, getServer (fireTimer s' t now) j = getServer s' j := by
    rcases ht with ht | ht | ht | ht | ht <;> subst ht
    · intro j
      simp [fireTimer, hdel]
    · intro j
      cases hh : heapGet s'.heap r with
      | none => simp [fireTimer, hh]
      | some c =>
        exact getServer_heapSet_unref s' _ r { c with status := "running", startedAt := some now }
          (by simp [fireTimer, hh]) (by simp [fireTimer, hh]) hunref j
    · intro j
      cases hh : heapGet s'.heap r with
      | none => simp [fireTimer, hh]
      | some c =>
        exact getServer_heapSet_unref s' _ r { c with status := "stopped", stoppedAt := some now }
          (by simp [fireTimer, hh]) (by simp [fireTimer, hh]) hunref j
    · intro j
      cases hh : heapGet s'.heap r with
      | none => simp [fireTimer, hh]
      | some c =>
        exact getServer_heapSet_unref s' _ r { c with status := "starting" }
          (by simp [fireTimer, hh]) (by simp [fireTimer, hh]) hunref j
    · intro j
      cases hh : heapGet s'.heap r with
      | none => simp [fireTimer, hh]
      | some c =>
        exact getServer_heapSet_unref s' _ r { c with status := "running", startedAt := some now }
          (by simp [fireTimer, hh]) (by simp [fireTimer, hh]) hunref j
  refine ⟨hview, ?_, ?_⟩
  · rw [hview id]
    simp [getServer, hdel]
  · intro hrid
    refine ⟨?_, ?_⟩
    · simp [deleteServer, hrid, getServer, mapGet_mapDelete_self]
    · intro k hk
      simp [deleteServer, hrid, mapGet_mapDelete_ne _ _ _ hk]

/-- **C1 (witness).** Evaluated on `exDetached`: a deleted id whose
object still has a pending start timer; firing it changes no observable
view.  The delete postcondition is evaluated on `exS1`. -/
theorem delete_then_delayed_fires_noop_witness :
    mapGet exDetached.containers "id1" = none ∧
    getServer (fireTimer exDetached (Timer.startFire 0) 9) "id1" = none ∧
    getServer (fireTimer exDetached (Timer.startFire 0) 9) "zz"
      = getServer exDetached "zz" ∧
    mapGet exS1.containers "id1" = some 0 ∧
    getServer (deleteServer exS1 "id1").1 "id1" = none := by
  have h := delete_then_delayed_fires_noop exS1 exDetached "id1" 0 (Timer.startFire 0) 9
    rfl (fun k => by simp [exDetached, mapGet]) (Or.inr (Or.inl rfl))
  exact ⟨rfl, h.2.1, h.1 "zz", rfl, (h.2.2 rfl).1⟩

/-- The restart start-phase timer for reference `r` is introduced into
the pending set only by the firing of the restart stop-phase timer for
`r` (the inner `setTimeout` is created inside the outer callback,
`src/server.js:169-176`); no request and no other firing schedules
it. -/
theorem restartStart_only_after_restartStop (s : Sys) (e : Event) (r : Nat)
    (h : Timer.restartStartFire r ∈ (step s e).1.pending) :
    Timer.restartStartFire r ∈ s.pending ∨ ∃ m, e = Event.fire (Timer.restartStopFire r) m := by
  cases e with
  | createReq body rand now =>
    left
    cases hb : body.name with
    | none => simpa [step, postServers, hb] using h
    | some n =>
      by_cases hn : n = ""
      · simpa [step, postServers, hb, hn] using h
      · simpa [step, postServers, hb, hn, createContainer] using h
  | startReq id =>
    left
    cases hm : mapGet s.containers id with
    | none => simpa [step, startServer, hm] using h
    | some r' =>
      cases hh : heapGet s.heap r' with
      | none => simpa [step, startServer, hm, hh] using h
      | some c =>
        by_cases hrun : c.status = "running"
        · simpa [step, startServer, hm, hh, hrun] using h
        · simpa [step, startServer, hm, hh, hrun] using h
  | stopReq id =>
    left
    cases hm : mapGet s.containers id with
    | none => simpa [step, stopServer, hm] using h
    | some r' =>
      cases hh : heapGet s.heap r' with
      | none => simpa [step, stopServer, hm, hh] using h
      | some c =>
        by_cases hstop : c.status = "stopped"
        · simpa [step, stopServer, hm, hh, hstop] using h
        · simpa [step, stopServer, hm, hh, hstop] using h
  | restartReq id =>
    left
    cases hm : mapGet s.containers id with
    | none => simpa [step, restartServer, hm] using h
    | some r' =>
      cases hh : heapGet s.heap r' with
      | none => simpa [step, restartServer, hm, hh] using h
      | some c => simpa [step, restartServer, hm, hh] using h
  | deleteReq id =>
    left
    cases hm : mapGet s.containers id with
    | none => simpa [step, deleteServer, hm] using h
    | some r' => simpa [step, deleteServer, hm] using h
  | fire t m =>
    by_cases hmem : t ∈ s.pending
    · cases t with
      | createFire cid =>
        left
        cases hm : mapGet s.containers cid with
        | none => simpa [step, hmem, fireTimer, hm] using h
        | some r' =>
          cases hh : heapGet s.heap r' with
          | none => simpa [step, hmem, fireTimer, hm, hh] using h
          | some c => simpa [step, hmem, fireTimer, hm, hh] using h
      | startFire r' =>
        left
        cases hh : heapGet s.heap r' with
        | none => simpa [step, hmem, fireTimer, hh] using h
        | some c => simpa [step, hmem, fireTimer, hh] using h
      | stopFire r' =>
        left
        cases hh : heapGet s.heap r' with
        | none => simpa [step, hmem, fireTimer, hh] using h
        | some c => simpa [step, hmem, fireTimer, hh] using h
      | restartStartFire r' =>
        left
        cases hh : heapGet s.heap r' with
        | none => exact List.mem_of_mem_erase (by simpa [step, hmem, fireTimer, hh] using h)
        | some c => exact List.mem_of_mem_erase (by simpa [step, hmem, fireTimer, hh] using h)
      | restartStopFire r' =>
        cases hh : heapGet s.heap r' with
        | none => exact Or.inl (by simpa [step, hmem, fireTimer, hh] using h)
        | some c =>
          have h' := h
          simp [step, hmem, fireTimer, hh] at h'
          rcases h' with h' | h'
          · exact Or.inl h'
          · subst h'
            exact Or.inr ⟨m, rfl⟩
    · left
      simpa [step, hmem] using h

/-- **C3.** `restart` on an existing record: the immediate effect sets
status to `stopping` (and answers 200); firing the stop-phase timer sets
status to `starting` and — only then — schedules the start-phase timer;
firing the start-phase timer sets status to `running` and stamps
`startedAt`.  The last conjunct is the strict ordering: across the whole
step relation, the start-phase timer can only appear in the pending set
through the firing of the stop-phase timer, so stop-resolution strictly
precedes start-initiation. -/
theorem restart_three_phase (s : Sys) (id : String) (r : Nat) (c : Container)
    (hr : mapGet s.containers id = some r) (hc : heapGet s.heap r = some c) :
    (restartServer s id).2 = Resp.okMsg true "Server restarting" ∧
    getServer (restartServer s id).1 id = some { c with status := "stopping" } ∧
    (restartServer s id).1.pending = s.pending ++ [Timer.restartStopFire r] ∧
    (∀ s₂ c₂ m, heapGet s₂.heap r = some c₂ →
      heapGet (fireTimer s₂ (Timer.restartStopFire r) m).heap r
        = some { c₂ with status := "starting" } ∧
      (fireTimer s₂ (Timer.restartStopFire r) m).pending
        = s₂.pending ++ [Timer.restartStartFire r]) ∧
    (∀ s₃ c₃ m, heapGet s₃.heap r = some c₃ →
      heapGet (fireTimer s₃ (Timer.restartStartFire r) m).heap r
        = some { c₃ with status := "running", startedAt := some m }) ∧
    (∀ s₄ e, Timer.restartStartFire r ∈ (step s₄ e).1.pending →
      Timer.restartStartFire r ∈ s₄.pending ∨
        ∃ m, e = Event.fire (Timer.restartStopFire r) m) := by
  refine ⟨?_, ?_, ?_, ?_, ?_, ?_⟩
  · simp [restartServer, hr, hc]
  · simp [restartServer, getServer, hr, hc, heapGet_heapSet_self _ _ _ _ hc]
  · simp [restartServer, hr, hc]
  · intro s₂ c₂ m hc₂
    constructor
    · simp [fireTimer, hc₂, heapGet_heapSet_self _ _ _ _ hc₂]
    · simp [fireTimer, hc₂]
  · intro s₃ c₃ m hc₃
    simp [fireTimer, hc₃, heapGet_heapSet_self _ _ _ _ hc₃]
  · intro s₄ e h
    exact restartStart_only_after_restartStop s₄ e r h

/-- **C3 (witness).** The three phases evaluated on the running record
of `exRunning`. -/
theorem restart_three_phase_witness :
    mapGet exRunning.containers "cc" = some 0 ∧
    heapGet exRunning.heap 0 = some { cBase with status := "running" } ∧
    (restartServer exRunning "cc").2 = Resp.okMsg true "Server restarting" ∧
    getServer (restartServer exRunning "cc").1 "cc"
      = some { cBase with status := "stopping" } ∧
    heapGet (fireTimer (restartServer exRunning "cc").1 (Timer.restartStopFire 0) 2000).heap 0
      = some { cBase with status := "starting" } ∧
    (fireTimer (restartServer exRunning "cc").1 (Timer.restartStopFire 0) 2000).pending
      = (restartServer exRunning "cc").1.pending ++ [Timer.restartStartFire 0] ∧
    heapGet (fireTimer
        (fireTimer (restartServer exRunning "cc").1 (Timer.restartStopFire 0) 2000)
        (Timer.restartStartFire 0) 5000).heap 0
      = some { cBase with status := "running", startedAt := some 5000 } := by
  have h := restart_three_phase exRunning "cc" 0 { cBase with status := "running" } rfl rfl
  refine ⟨rfl, rfl, h.1, h.2.1, ?_, ?_, ?_⟩
  · exact (h.2.2.2.1 (restartServer exRunning "cc").1
      { cBase with status := "stopping" } 2000 rfl).1
  · exact (h.2.2.2.1 (restartServer exRunning "cc").1
      { cBase with status := "stopping" } 2000 rfl).2
  · exact h.2.2.2.2.1
      (fireTimer (restartServer exRunning "cc").1 (Timer.restartStopFire 0) 2000)
      { cBase with status := "starting" } 5000 rfl

/-- `heapSet` preserves the status invariant when the written record has
an enumerated status. -/
theorem heapOk_heapSet (h : List (Nat × Container)) (r : Nat) (c : Container)
    (hh : heapOk h) (hc : validStatus c.status) : heapOk (heapSet h r c) := by
  intro p hp
  rcases heapSet_mem h r c p hp with hp' | hp'
  · rw [hp']
    exact hc
  · exact hh p hp'

/-- Every event of the system preserves the status invariant: requests
and timer callbacks only ever write one of the five enumerated
statuses. -/
theorem heapOk_step (s : Sys) (e : Event) (hh : heapOk s.heap) : heapOk (step s e).1.heap := by
  cases e with
  | createReq body rand now =>
    cases hb : body.name with
    | none => simpa [step, postServers, hb] using hh
    | some n =>
      by_cases hn : n = ""
      · simpa [step, postServers, hb, hn] using hh
      · intro p hp
        simp [step, postServers, hb, hn, createContainer] at hp
        rcases hp with hp | hp
        · rw [hp]
          exact Or.inl rfl
        · exact hh p hp
  | startReq id =>
    cases hm : mapGet s.containers id with
    | none => simpa [step, startServer, hm] using hh
    | some r =>
      cases hc : heapGet s.heap r with
      | none => simpa [step, startServer, hm, hc] using hh
      | some c =>
        by_cases hrun : c.status = "running"
        · simpa [step, startServer, hm, hc, hrun] using hh
        · have : heapOk (heapSet s.heap r { c with status := "starting" }) :=
            heapOk_heapSet _ _ _ hh (Or.inr (Or.inl rfl))
          simpa [step, startServer, hm, hc, hrun] using this
  | stopReq id =>
    cases hm : mapGet s.containers id with
    | none => simpa [step, stopServer, hm] using hh
    | some r =>
      cases hc : heapGet s.heap r with
      | none => simpa [step, stopServer, hm, hc] using hh
      | some c =>
        by_cases hstop : c.status = "stopped"
        · simpa [step, stopServer, hm, hc, hstop] using hh
        · have : heapOk (heapSet s.heap r { c with status := "stopping" }) :=
            heapOk_heapSet _ _ _ hh (Or.inr (Or.inr (Or.inr (Or.inl rfl))))
          simpa [step, stopServer, hm, hc, hstop] using this
  | restartReq id =>
    cases hm : mapGet s.containers id with
    | none => simpa [step, restartServer, hm] using hh
    | some r =>
      cases hc : heapGet s.heap r with
      | none => simpa [step, restartServer, hm, hc] using hh
      | some c =>
        have : heapOk (heapSet s.heap r { c with status := "stopping" }) :=
          heapOk_heapSet _ _ _ hh (Or.inr (Or.inr (Or.inr (Or.inl rfl))))
        simpa [step, restartServer, hm, hc] using this
  | deleteReq id =>
    cases hm : mapGet s.containers id with
    | none => simpa [step, deleteServer, hm] using hh
    | some r => simpa [step, deleteServer, hm] using hh
  | fire t m =>
    by_cases hmem : t ∈ s.pending
    · cases t with
      | createFire cid =>
        cases hm : mapGet s.containers cid with
        | none => simpa [step, hmem, fireTimer, hm] using hh
        | some r =>
          cases hc : heapGet s.heap r with
          | none => simpa [step, hmem, fireTimer, hm, hc] using hh
          | some c =>
            have : heapOk (heapSet s.heap r { c with status := "running", startedAt := some m }) :=
              heapOk_heapSet _ _ _ hh (Or.inr (Or.inr (Or.inl rfl)))
            simpa [step, hmem, fireTimer, hm, hc] using this
      | startFire r =>
        cases hc : heapGet s.heap r with
        | none => simpa [step, hmem, fireTimer, hc] using hh
        | some c =>
          have : heapOk (heapSet s.heap r { c with status := "running", startedAt := some m }) :=
            heapOk_heapSet _ _ _ hh (Or.inr (Or.inr (Or.inl rfl)))
          simpa [step, hmem, fireTimer, hc] using this
      | stopFire r =>
        cases hc : heapGet s.heap r with
        | none => simpa [step, hmem, fireTimer, hc] using hh
        | some c =>
          have : heapOk (heapSet s.heap r { c with status := "stopped", stoppedAt := some m }) :=
            heapOk_heapSet _ _ _ hh (Or.inr (Or.inr (Or.inr (Or.inr rfl))))
          simpa [step, hmem, fireTimer, hc] using this
      | restartStopFire r =>
        cases hc : heapGet s.heap r with
        | none => simpa [step, hmem, fireTimer, hc] using hh
        | some c =>
          have : heapOk (heapSet s.heap r { c with status := "starting" }) :=
            heapOk_heapSet _ _ _ hh (Or.inr (Or.inl rfl))
          simpa [step, hmem, fireTimer, hc] using this
      | restartStartFire r =>
        cases hc : heapGet s.heap r with
        | none => simpa [step, hmem, fireTimer, hc] using hh
        | some c =>
          have : heapOk (heapSet s.heap r { c with status := "running", startedAt := some m }) :=
            heapOk_heapSet _ _ _ hh (Or.inr (Or.inr (Or.inl rfl)))
          simpa [step, hmem, fireTimer, hc] using this
    · simpa [step, hmem] using hh

/-- The status invariant holds in every reachable state. -/
theorem reachable_heapOk (s : Sys) (h : Reachable s) : heapOk s.heap := by
  induction h with
  | init =>
    intro p hp
    simp [Sys.init] at hp
  | tail e hs ih => exact heapOk_step _ e ih

/-- **C8.** In every state reachable by any sequence of requests and
timer firings, every record resolvable through the registry has one of
the five enumerated statuses `created`, `starting`, `running`,
`stopping`, `stopped`. -/
theorem status_always_enumerated (s : Sys) (hs : Reachable s) (id : String) (c : Container)
    (hc : getServer s id = some c) : validStatus c.status := by
  have hh := reachable_heapOk s hs
  cases hm : mapGet s.containers id with
  | none => simp [getServer, hm] at hc
  | some r =>
    simp only [getServer, hm] at hc
    exact hh (r, c) (heapGet_mem _ _ _ hc)

/-- **C8 (witness).** Evaluated on the reachable state `exS1` and its
single record. -/
theorem status_always_enumerated_witness :
    Reachable exS1 ∧
    getServer exS1 "id1" = some (buildContainer "id1" (cfgOf exBody "Survival") 0) ∧
    validStatus (buildContainer "id1" (cfgOf exBody "Survival") 0).status :=
  ⟨Reachable.tail (Event.createReq exBody "id1" 0) Reachable.init, rfl,
   status_always_enumerated exS1
     (Reachable.tail (Event.createReq exBody "id1" 0) Reachable.init) "id1" _ rfl⟩
